import Mathlib

/-!
Verification of the terraform-provider-lakefs HTTP client and resource
CRUD layer, shallowly embedded from the Go sources in
`internal/provider/`.  External effects (the HTTP round trip performed by
`http.Client.Do`, and the `encoding/json` marshal / unmarshal outcomes)
are environment parameters; everything the provider itself computes is
translated directly from the Go code.
-/

/-- Containment of `sub` in `s` as character lists: `sub` is a prefix of
some suffix of `s`. -/
def charsContain : List Char → List Char → Bool
  | [], sub => sub.isEmpty
  | s@(_ :: t), sub => sub.isPrefixOf s || charsContain t sub

/-- Model of Go `strings.Contains s sub` (substring test). -/
def strContains (s sub : String) : Bool :=
  charsContain s.data sub.data

/-- Model of Go `strings.TrimSuffix s suffix`: removes one trailing
occurrence of `suffix` when present. -/
def trimSuffix (s suffix : String) : String :=
  if s.endsWith suffix then s.dropRight suffix.length else s

/-- The `APIError` struct of `client.go`: a LakeFS server error body with
JSON fields `message` and optional `status_code` (Go zero value 0 when
the field is absent). -/
structure APIError where
  Message : String
  Code : Int
deriving DecidableEq

/-- The `Error()` method of `*APIError` in `client.go`. -/
def APIError.Error (e : APIError) : String :=
  if e.Code ≠ 0 then
    "LakeFS API error (status " ++ toString e.Code ++ "): " ++ e.Message
  else
    "LakeFS API error: " ++ e.Message

/-- A Go `error` value as produced by the client code: either a typed
`*APIError` or any other error carrying a message (the `fmt.Errorf`
wrappers). -/
inductive GoError where
  | apiError (e : APIError)
  | other (msg : String)
deriving DecidableEq

/-- The `Error()` text of a Go error value. -/
def GoError.Error : GoError → String
  | .apiError e => e.Error
  | .other m => m

/-- The `IsNotFound` function of `client.go`: a `nil` error is `none`,
the `*APIError` type assertion is the first constructor, and every other
non-nil error is checked for the substring "status 404". -/
def IsNotFound : Option GoError → Bool
  | some (.apiError e) => e.Code == 404
  | some (.other m) => strContains m "status 404"
  | none => false

/-- The `LakeFSClient` configuration struct of `provider.go`. -/
structure LakeFSClient where
  Endpoint : String
  AccessKeyID : String
  SecretAccessKey : String
  SkipSSLVerify : Bool
deriving DecidableEq

/-- The `APIClient` struct of `client.go` (the `http.Client` field is
part of the wire environment). -/
structure APIClient where
  BaseURL : String
  Username : String
  Password : String
deriving DecidableEq

/-- The `NewAPIClient` constructor of `client.go`. -/
def NewAPIClient (config : LakeFSClient) : APIClient :=
  { BaseURL := trimSuffix config.Endpoint "/"
    Username := config.AccessKeyID
    Password := config.SecretAccessKey }

/-- An HTTP request as built by `Request` / `PostRaw`: method, full URL,
basic-auth credentials, the two headers the client sets, and the
marshaled body (if any). -/
structure HTTPRequest where
  method : String
  url : String
  username : String
  password : String
  contentType : String
  accept : String
  body : Option String
deriving DecidableEq

/-- Outcome of reading the response body (`io.ReadAll`). -/
inductive ReadBodyResult where
  | ok (s : String)
  | err (msg : String)
deriving DecidableEq

/-- Outcome of one `http.Client.Do` round trip: a transport error, or a
response with a status code and a body-read outcome. -/
inductive RoundTripOutcome where
  | netErr (msg : String)
  | resp (status : Int) (readBody : ReadBodyResult)

/-- The wire environment: whether `http.NewRequestWithContext` fails, and
what one round trip of the built request returns. -/
structure WireEnv where
  newRequestError : Option String
  roundTrip : HTTPRequest → RoundTripOutcome

/-- Outcome of `json.Marshal` on the request body. -/
inductive MarshalResult where
  | ok (s : String)
  | err (msg : String)
deriving DecidableEq

/-- Outcomes of `json.Unmarshal` on a response body: decoding into an
`APIError` target (`none` when `Unmarshal` itself errors), and decoding
into the caller's result target (`some msg` when it errors). -/
structure JsonCodec where
  unmarshalApiError : String → Option APIError
  unmarshalResultErr : String → Option String

/-- The request value `Request` / `PostRaw` hand to `http.Client.Do`:
URL is `BaseURL ++ path`, basic auth from the client, and the two
`application/json` headers. -/
def mkHTTPRequest (c : APIClient) (method path : String) (bodyStr : Option String) : HTTPRequest :=
  { method := method
    url := c.BaseURL ++ path
    username := c.Username
    password := c.Password
    contentType := "application/json"
    accept := "application/json"
    body := bodyStr }

/-- The error text `fmt.Errorf("API request failed with status %d: %s", status, body)`
used by both `Request` and `PostRaw` for a non-2xx response without a
decodable message. -/
def apiFailText (status : Int) (respBody : String) : String :=
  "API request failed with status " ++ toString status ++ ": " ++ respBody

/-- The marshaled body string of a marshal outcome (`nil` body or a
failed marshal contribute no body; the failure case is short-circuited
before this is used). -/
def bodyStrOf : Option MarshalResult → Option String
  | some (.ok s) => some s
  | _ => none

/-- The body of `APIClient.Request` from the `http.NewRequestWithContext`
call on: request construction, one `Do` round trip, body read, status
check and result unmarshal. `bodyStr` is the already-marshaled request
body. -/
def requestCore (c : APIClient) (method path : String) (bodyStr : Option String)
    (hasResult : Bool) (env : WireEnv) (codec : JsonCodec) :
    List HTTPRequest × Option GoError :=
  match env.newRequestError with
  | some m => ([], some (.other ("failed to create request: " ++ m)))
  | none =>
    let req := mkHTTPRequest c method path bodyStr
    match env.roundTrip req with
    | .netErr m => ([req], some (.other ("failed to execute request: " ++ m)))
    | .resp status rb =>
      match rb with
      | .err m => ([req], some (.other ("failed to read response body: " ++ m)))
      | .ok respBody =>
        if status < 200 ∨ 300 ≤ status then
          match codec.unmarshalApiError respBody with
          | some apiErr =>
            if apiErr.Message ≠ "" then ([req], some (.apiError apiErr))
            else ([req], some (.other (apiFailText status respBody)))
          | none => ([req], some (.other (apiFailText status respBody)))
        else
          if hasResult = true ∧ 0 < respBody.length then
            match codec.unmarshalResultErr respBody with
            | some m => ([req], some (.other ("failed to unmarshal response: " ++ m)))
            | none => ([req], none)
          else ([req], none)

/-- The `APIClient.Request` method of `client.go`, returning the list of
HTTP requests handed to `http.Client.Do` together with the returned Go
error (`none` = nil). `body` is the `json.Marshal` outcome of the body
argument (`none` = nil body); `hasResult` is whether a non-nil result
target was passed. -/
def APIClient.Request (c : APIClient) (method path : String) (body : Option MarshalResult)
    (hasResult : Bool) (env : WireEnv) (codec : JsonCodec) :
    List HTTPRequest × Option GoError :=
  match body with
  | some (.err m) => ([], some (.other ("failed to marshal request body: " ++ m)))
  | _ => requestCore c method path (bodyStrOf body) hasResult env codec

/-- The body of `APIClient.PostRaw` from the request-construction step
on; mirrors `requestCore` but returns the raw response body on success
instead of unmarshaling it. -/
def postRawCore (c : APIClient) (path : String) (bodyStr : Option String)
    (env : WireEnv) (codec : JsonCodec) :
    List HTTPRequest × Except GoError String :=
  match env.newRequestError with
  | some m => ([], .error (.other ("failed to create request: " ++ m)))
  | none =>
    let req := mkHTTPRequest c "POST" path bodyStr
    match env.roundTrip req with
    | .netErr m => ([req], .error (.other ("failed to execute request: " ++ m)))
    | .resp status rb =>
      match rb with
      | .err m => ([req], .error (.other ("failed to read response body: " ++ m)))
      | .ok respBody =>
        if status < 200 ∨ 300 ≤ status then
          match codec.unmarshalApiError respBody with
          | some apiErr =>
            if apiErr.Message ≠ "" then ([req], .error (.apiError apiErr))
            else ([req], .error (.other (apiFailText status respBody)))
          | none => ([req], .error (.other (apiFailText status respBody)))
        else
          ([req], .ok respBody)

/-- The `APIClient.PostRaw` method of `client.go`: like `Request` with
method POST, but returns the raw response body on success instead of
unmarshaling it. -/
def APIClient.PostRaw (c : APIClient) (path : String) (body : Option MarshalResult)
    (env : WireEnv) (codec : JsonCodec) :
    List HTTPRequest × Except GoError String :=
  match body with
  | some (.err m) => ([], .error (.other ("failed to marshal request body: " ++ m)))
  | _ => postRawCore c path (bodyStrOf body) env codec

/-- The `Get` wrapper of `client.go` (nil body, non-nil result target at
every call site). -/
def APIClient.Get (c : APIClient) (path : String) (env : WireEnv) (codec : JsonCodec) :
    List HTTPRequest × Option GoError :=
  c.Request "GET" path none true env codec

/-- The `Post` wrapper of `client.go`. -/
def APIClient.Post (c : APIClient) (path : String) (body : Option MarshalResult)
    (hasResult : Bool) (env : WireEnv) (codec : JsonCodec) :
    List HTTPRequest × Option GoError :=
  c.Request "POST" path body hasResult env codec

/-- The `Put` wrapper of `client.go`. -/
def APIClient.Put (c : APIClient) (path : String) (body : Option MarshalResult)
    (hasResult : Bool) (env : WireEnv) (codec : JsonCodec) :
    List HTTPRequest × Option GoError :=
  c.Request "PUT" path body hasResult env codec

/-- The `Delete` wrapper of `client.go` (nil body, nil result target). -/
def APIClient.Delete (c : APIClient) (path : String) (env : WireEnv) (codec : JsonCodec) :
    List HTTPRequest × Option GoError :=
  c.Request "DELETE" path none false env codec

/-- A `terraform-plugin-framework` `types.String` value: null, unknown,
or a known string. -/
inductive TFString where
  | null
  | unknown
  | value (s : String)
deriving DecidableEq

/-- The `ValueString()` method: the known value, or "" for null /
unknown. -/
def TFString.valueString : TFString → String
  | .value s => s
  | _ => ""

/-- The `IsNull()` method. -/
def TFString.isNull : TFString → Bool
  | .null => true
  | _ => false

/-- The `IsUnknown()` method. -/
def TFString.isUnknown : TFString → Bool
  | .unknown => true
  | _ => false

/-- A `types.Bool` value. -/
inductive TFBool where
  | null
  | unknown
  | value (b : Bool)
deriving DecidableEq

/-- The `ValueBool()` method: the known value, or `false` for null /
unknown. -/
def TFBool.valueBool : TFBool → Bool
  | .value b => b
  | _ => false

/-- The `IsNull()` method. -/
def TFBool.isNull : TFBool → Bool
  | .null => true
  | _ => false

/-- The `IsUnknown()` method. -/
def TFBool.isUnknown : TFBool → Bool
  | .unknown => true
  | _ => false

/-- A `types.Int64` value. -/
inductive TFInt64 where
  | null
  | unknown
  | value (n : Int)
deriving DecidableEq

/-- Terraform diagnostics: a list of (summary, detail) error pairs. -/
abbrev Diagnostics := List (String × String)

/-- The `RepositoryModel` of the generated `resource_repository`
schema, with exactly the fields `repository_resource.go` reads and
writes. -/
structure RepositoryModel where
  Id : TFString
  Repository : TFString
  Name : TFString
  StorageNamespace : TFString
  StorageId : TFString
  DefaultBranch : TFString
  SampleData : TFBool
  ReadOnly : TFBool
  CreationDate : TFInt64
deriving DecidableEq

/-- The `RepositoryCreateRequest` struct of `repository_resource.go`. -/
structure RepositoryCreateRequest where
  Name : String
  StorageNamespace : String
  DefaultBranch : String
  SampleData : Bool
  ReadOnly : Bool
deriving DecidableEq

/-- The `RepositoryResponse` struct of `repository_resource.go`. -/
structure RepositoryResponse where
  ID : String
  Name : String
  StorageNamespace : String
  StorageID : String
  DefaultBranch : String
  CreationDate : Int
  ReadOnly : Bool
deriving DecidableEq

/-- A marshaled JSON primitive (the only value shapes appearing in the
repository create request). -/
inductive JsonPrim where
  | str (s : String)
  | bool (b : Bool)
deriving DecidableEq

/-- Model of `json.Marshal` on `RepositoryCreateRequest`: field order as
declared; `default_branch`, `sample_data` and `read_only` carry
`omitempty`, so they are dropped at their Go zero values ("" and
`false`). -/
def RepositoryCreateRequest.marshalFields (r : RepositoryCreateRequest) :
    List (String × JsonPrim) :=
  [("name", .str r.Name), ("storage_namespace", .str r.StorageNamespace)]
    ++ (if r.DefaultBranch = "" then [] else [("default_branch", .str r.DefaultBranch)])
    ++ (if r.SampleData then [("sample_data", .bool true)] else [])
    ++ (if r.ReadOnly then [("read_only", .bool true)] else [])

/-- The request struct built by `RepositoryResource.Create`: name and
storage namespace always from the plan; the three optional fields
assigned only when the plan value is neither null nor unknown. -/
def repositoryCreateRequestOf (data : RepositoryModel) : RepositoryCreateRequest :=
  let createReq : RepositoryCreateRequest :=
    { Name := data.Name.valueString
      StorageNamespace := data.StorageNamespace.valueString
      DefaultBranch := ""
      SampleData := false
      ReadOnly := false }
  let createReq :=
    if !data.DefaultBranch.isNull && !data.DefaultBranch.isUnknown then
      { createReq with DefaultBranch := data.DefaultBranch.valueString }
    else createReq
  let createReq :=
    if !data.SampleData.isNull && !data.SampleData.isUnknown then
      { createReq with SampleData := data.SampleData.valueBool }
    else createReq
  let createReq :=
    if !data.ReadOnly.isNull && !data.ReadOnly.isUnknown then
      { createReq with ReadOnly := data.ReadOnly.valueBool }
    else createReq
  createReq

/-- Outcome of a resource Create handler. -/
inductive CreateOutcome (σ : Type) where
  | errored (summary detail : String)
  | created (state : σ)
deriving DecidableEq

/-- Outcome of a resource Read handler: state removal, an error
diagnostic, or refreshed state. -/
inductive ReadOutcome (σ : Type) where
  | removed
  | errored (summary detail : String)
  | updated (state : σ)
deriving DecidableEq

/-- Outcome of a resource Delete handler. -/
inductive DeleteOutcome where
  | errored (summary detail : String)
  | completed
deriving DecidableEq

/-- The state written by `RepositoryResource.Create` / `Read` from an
API `RepositoryResponse` (both use the response `id` for the `id`,
`repository` and `name` state fields). -/
def repositoryStateOf (data : RepositoryModel) (result : RepositoryResponse) :
    RepositoryModel :=
  { data with
    Id := .value result.ID
    Repository := .value result.ID
    Name := .value result.ID
    StorageNamespace := .value result.StorageNamespace
    StorageId := .value result.StorageID
    DefaultBranch := .value result.DefaultBranch
    CreationDate := .value result.CreationDate
    ReadOnly := .value result.ReadOnly }

/-- The `RepositoryResource.Create` handler, given the plan model and
the outcome of the POST (the response decoded into
`RepositoryResponse`, or the client error). Returns the method, path
and request struct sent, and the handler outcome. -/
def RepositoryResource.Create (data : RepositoryModel)
    (postResult : Except GoError RepositoryResponse) :
    (String × String × RepositoryCreateRequest) × CreateOutcome RepositoryModel :=
  (("POST", "/repositories", repositoryCreateRequestOf data),
   match postResult with
   | .error e => .errored "Client Error" ("Unable to create repository: " ++ e.Error)
   | .ok result => .created (repositoryStateOf data result))

/-- The repository identifier used by `Read` / `Delete`: the state `id`,
falling back to `name` when empty. -/
def repositoryIdOf (data : RepositoryModel) : String :=
  if data.Id.valueString = "" then data.Name.valueString else data.Id.valueString

/-- The `RepositoryResource.Read` handler, given the state model and the
outcome of the GET. Returns the GET path and the handler outcome. -/
def RepositoryResource.Read (data : RepositoryModel)
    (getResult : Except GoError RepositoryResponse) :
    String × ReadOutcome RepositoryModel :=
  ("/repositories/" ++ repositoryIdOf data,
   match getResult with
   | .error e =>
     if IsNotFound (some e) then .removed
     else .errored "Client Error" ("Unable to read repository: " ++ e.Error)
   | .ok result => .updated (repositoryStateOf data result))

/-- The `RepositoryResource.Update` handler: no API call is made; the
plan (as decoded by `req.Plan.Get`) is written back as state. The first
component is the list of HTTP requests issued. -/
def RepositoryResource.Update (planResult : Except Diagnostics RepositoryModel) :
    List HTTPRequest × Except Diagnostics RepositoryModel :=
  ([], planResult)

/-- The `RepositoryResource.Delete` handler, given the state model and
the error outcome of the DELETE (`none` = nil). Returns the DELETE path
and the handler outcome. -/
def RepositoryResource.Delete (data : RepositoryModel)
    (deleteResult : Option GoError) : String × DeleteOutcome :=
  ("/repositories/" ++ repositoryIdOf data,
   match deleteResult with
   | some e =>
     if !(IsNotFound (some e)) then
       .errored "Client Error" ("Unable to delete repository: " ++ e.Error)
     else .completed
   | none => .completed)

/-- The `BranchModel` of the generated `resource_branch` schema, with
the fields `branch_resource.go` reads and writes. -/
structure BranchModel where
  Id : TFString
  Repository : TFString
  Name : TFString
  Branch : TFString
  Source : TFString
  CommitId : TFString
deriving DecidableEq

/-- The `BranchResponse` struct of `branch_resource.go`. -/
structure BranchResponse where
  ID : String
  CommitID : String
deriving DecidableEq

/-- The branch name used by `BranchResource.Read` / `Delete`: the state
`name`, falling back to `branch` when empty. -/
def branchNameOf (data : BranchModel) : String :=
  if data.Name.valueString = "" then data.Branch.valueString else data.Name.valueString

/-- The `BranchResource.Read` handler, given the state model and the
outcome of the GET. -/
def BranchResource.Read (data : BranchModel)
    (getResult : Except GoError BranchResponse) :
    String × ReadOutcome BranchModel :=
  ("/repositories/" ++ data.Repository.valueString ++ "/branches/" ++ branchNameOf data,
   match getResult with
   | .error e =>
     if IsNotFound (some e) then .removed
     else .errored "Client Error" ("Unable to read branch: " ++ e.Error)
   | .ok result => .updated { data with CommitId := .value result.CommitID })

/-- The `BranchResource.Update` handler: no API call is made; the plan is
written back as state. -/
def BranchResource.Update (planResult : Except Diagnostics BranchModel) :
    List HTTPRequest × Except Diagnostics BranchModel :=
  ([], planResult)

/-- The `BranchResource.Delete` handler, given the state model and the
error outcome of the DELETE. -/
def BranchResource.Delete (data : BranchModel)
    (deleteResult : Option GoError) : String × DeleteOutcome :=
  ("/repositories/" ++ data.Repository.valueString ++ "/branches/" ++ branchNameOf data,
   match deleteResult with
   | some e =>
     if !(IsNotFound (some e)) then
       .errored "Client Error" ("Unable to delete branch: " ++ e.Error)
     else .completed
   | none => .completed)

/-- The `TagModel` of the generated `resource_tag` schema, with the
fields the tag resource reads and writes. -/
structure TagModel where
  Id : TFString
  Repository : TFString
  Tag : TFString
  Ref : TFString
  CommitId : TFString
  Force : TFBool
deriving DecidableEq

/-- The `TagResponse` struct of the tag resource. -/
structure TagResponse where
  ID : String
  CommitID : String
deriving DecidableEq

/-- The tag name used by `TagResource.Read` / `Delete`: the state `id`
(the tag name in the generated schema), falling back to `tag` when
empty. -/
def tagNameOf (data : TagModel) : String :=
  if data.Id.valueString = "" then data.Tag.valueString else data.Id.valueString

/-- The `TagResource.Read` handler, given the state model and the
outcome of the GET. -/
def TagResource.Read (data : TagModel)
    (getResult : Except GoError TagResponse) :
    String × ReadOutcome TagModel :=
  ("/repositories/" ++ data.Repository.valueString ++ "/tags/" ++ tagNameOf data,
   match getResult with
   | .error e =>
     if IsNotFound (some e) then .removed
     else .errored "Client Error" ("Unable to read tag: " ++ e.Error)
   | .ok result => .updated { data with CommitId := .value result.CommitID })

/-- The `TagResource.Update` handler: no API call is made; the plan is
written back as state. -/
def TagResource.Update (planResult : Except Diagnostics TagModel) :
    List HTTPRequest × Except Diagnostics TagModel :=
  ([], planResult)

/-- The `TagResource.Delete` handler, given the state model and the
error outcome of the DELETE. -/
def TagResource.Delete (data : TagModel)
    (deleteResult : Option GoError) : String × DeleteOutcome :=
  ("/repositories/" ++ data.Repository.valueString ++ "/tags/" ++ tagNameOf data,
   match deleteResult with
   | some e =>
     if !(IsNotFound (some e)) then
       .errored "Client Error" ("Unable to delete tag: " ++ e.Error)
     else .completed
   | none => .completed)

/-- The `BranchProtectionRule` struct of the branch-protection resource
(one JSON field, `pattern`). -/
structure BranchProtectionRule where
  Pattern : String
deriving DecidableEq

/-- A Terraform object value as used for a branch protection rule: an
attribute map from names to `types.String` values. -/
structure TFObject where
  attributes : List (String × TFString)
deriving DecidableEq

/-- Go map indexing `obj.Attributes()["name"]` on the attribute map. -/
def TFObject.getAttr (o : TFObject) (name : String) : TFString :=
  match o.attributes.lookup name with
  | some v => v
  | none => .null

/-- A `types.List` value whose elements are rule objects. -/
inductive TFList where
  | null
  | unknown
  | value (elements : List TFObject)
deriving DecidableEq

/-- The `extractBranchProtectionRules` function: nil for a null or
unknown list, otherwise one rule per element with the `pattern`
attribute's string value; no diagnostics are ever appended. -/
def extractBranchProtectionRules (rulesList : TFList) :
    List BranchProtectionRule × Diagnostics :=
  match rulesList with
  | .null => ([], [])
  | .unknown => ([], [])
  | .value elements =>
    (elements.map (fun obj => { Pattern := (obj.getAttr "pattern").valueString }), [])

/-- The `branchProtectionRulesToTerraformList` function: an empty rule
slice becomes an empty Terraform list, otherwise one object per rule
with its `pattern`; no diagnostics are ever appended. -/
def branchProtectionRulesToTerraformList (rules : List BranchProtectionRule) :
    TFList × Diagnostics :=
  if rules.length = 0 then
    (.value [], [])
  else
    (.value (rules.map (fun rule => { attributes := [("pattern", TFString.value rule.Pattern)] })),
     [])

/-- The `BranchProtectionModel` struct of the branch-protection
resource. -/
structure BranchProtectionModel where
  Repository : TFString
  Id : TFString
  Rules : TFList
deriving DecidableEq

/-- The `BranchProtectionResource.Read` handler, given the state model
and the outcome of the GET (the response decoded into a rule list). -/
def BranchProtectionResource.Read (data : BranchProtectionModel)
    (getResult : Except GoError (List BranchProtectionRule)) :
    String × ReadOutcome BranchProtectionModel :=
  ("/repositories/" ++ data.Repository.valueString ++ "/settings/branch_protection",
   match getResult with
   | .error e =>
     if IsNotFound (some e) then .removed
     else .errored "Client Error" ("Unable to read branch protection rules: " ++ e.Error)
   | .ok result =>
     .updated { data with
       Rules := (branchProtectionRulesToTerraformList result).1
       Id := .value data.Repository.valueString })

/-- Model of `json.Marshal` on a `[]BranchProtectionRule` slice (rule
patterns are assumed to need no JSON string escaping; the only use in a
handler is the empty slice, which marshals to "[]"). -/
def marshalBranchProtectionRules (rules : List BranchProtectionRule) : String :=
  "[" ++
    String.intercalate ","
      (rules.map (fun r => "\x7b\"pattern\":\"" ++ r.Pattern ++ "\"\x7d"))
    ++ "]"

/-- The branch-protection settings path for a state model. -/
def branchProtectionPathOf (data : BranchProtectionModel) : String :=
  "/repositories/" ++ data.Repository.valueString ++ "/settings/branch_protection"

/-- The `BranchProtectionResource.Delete` handler: it performs
`client.Put(path, []BranchProtectionRule{}, nil)` — a PUT of the empty
rule list through `APIClient.Request` — and ignores a not-found error.
Returns the requests issued on the wire and the handler outcome. -/
def BranchProtectionResource.Delete (client : LakeFSClient)
    (data : BranchProtectionModel) (env : WireEnv) (codec : JsonCodec) :
    List HTTPRequest × DeleteOutcome :=
  let c := NewAPIClient client
  let sent := c.Put (branchProtectionPathOf data)
    (some (.ok (marshalBranchProtectionRules []))) false env codec
  (sent.1,
   match sent.2 with
   | some e =>
     if !(IsNotFound (some e)) then
       .errored "Client Error" ("Unable to delete branch protection rules: " ++ e.Error)
     else .completed
   | none => .completed)

/-- Sample provider configuration for concrete instantiations. -/
def sampleConfig : LakeFSClient :=
  { Endpoint := "http://localhost:8000/api/v1/"
    AccessKeyID := "AK"
    SecretAccessKey := "SK"
    SkipSSLVerify := false }

/-- Wire environment answering every request with 200 and an empty
body. -/
def envOk : WireEnv := ⟨none, fun _ => .resp 200 (.ok "")⟩

/-- Wire environment answering every request with 404 and body "nf". -/
def env404 : WireEnv := ⟨none, fun _ => .resp 404 (.ok "nf")⟩

/-- Codec decoding every error body into a 404 `APIError` and accepting
every result body. -/
def codec404 : JsonCodec := ⟨fun _ => some ⟨"not found", 404⟩, fun _ => none⟩

/-- Codec that cannot decode an `APIError` and accepts every result
body. -/
def codecPlain : JsonCodec := ⟨fun _ => none, fun _ => none⟩

/-- A typed 404 API error value. -/
def sampleNotFound : GoError := .apiError ⟨"not found", 404⟩

/-- A concrete repository state model. -/
def sampleRepositoryModel : RepositoryModel :=
  { Id := .value "repo1"
    Repository := .value "repo1"
    Name := .value "repo1"
    StorageNamespace := .value "s3://bucket"
    StorageId := .value ""
    DefaultBranch := .value "main"
    SampleData := .value false
    ReadOnly := .null
    CreationDate := .value 0 }

/-- A concrete repository API response. -/
def sampleRepositoryResponse : RepositoryResponse :=
  { ID := "repo1"
    Name := "repo1"
    StorageNamespace := "s3://bucket"
    StorageID := ""
    DefaultBranch := "main"
    CreationDate := 1700000000
    ReadOnly := false }

/-- A concrete branch state model. -/
def sampleBranchModel : BranchModel :=
  { Id := .value "repo1/dev"
    Repository := .value "repo1"
    Name := .value "dev"
    Branch := .value "dev"
    Source := .value "main"
    CommitId := .value "abc" }

/-- A concrete tag state model. -/
def sampleTagModel : TagModel :=
  { Id := .value "v1"
    Repository := .value "repo1"
    Tag := .value "v1"
    Ref := .value "main"
    CommitId := .value "abc"
    Force := .value false }

/-- A concrete branch-protection state model. -/
def sampleBranchProtectionModel : BranchProtectionModel :=
  { Repository := .value "repo1"
    Id := .value "repo1"
    Rules := .value [{ attributes := [("pattern", TFString.value "main")] }] }

lemma isPrefixOf_append_self (l r : List Char) : l.isPrefixOf (l ++ r) = true := by
  induction l with
  | nil => simp [List.isPrefixOf]
  | cons a t ih => simp [List.isPrefixOf, ih]

lemma charsContain_prepend (a r sub : List Char) (h : charsContain r sub = true) :
    charsContain (a ++ r) sub = true := by
  induction a with
  | nil => simpa using h
  | cons x t ih => simp [charsContain, ih]

lemma charsContain_of_isPrefixOf (s sub : List Char) (h : sub.isPrefixOf s = true) :
    charsContain s sub = true := by
  cases s with
  | nil =>
    cases sub with
    | nil => rfl
    | cons a t => simp [List.isPrefixOf] at h
  | cons x t => simp [charsContain, h]

lemma strContains_append_middle (a b c : String) :
    strContains (a ++ b ++ c) b = true := by
  unfold strContains
  have hdata : (a ++ b ++ c).data = a.data ++ (b.data ++ c.data) := by
    show (a.data ++ b.data) ++ c.data = a.data ++ (b.data ++ c.data)
    simp [List.append_assoc]
  rw [hdata]
  exact charsContain_prepend _ _ _ (charsContain_of_isPrefixOf _ _ (isPrefixOf_append_self _ _))

lemma requestCore_fst (c : APIClient) (method path : String) (bodyStr : Option String)
    (hasResult : Bool) (env : WireEnv) (codec : JsonCodec)
    (h : env.newRequestError = none) :
    (requestCore c method path bodyStr hasResult env codec).1 =
      [mkHTTPRequest c method path bodyStr] := by
  unfold requestCore
  simp only [h]
  cases h2 : env.roundTrip (mkHTTPRequest c method path bodyStr) with
  | netErr m => rfl
  | resp status rb =>
    cases rb with
    | err m => rfl
    | ok respBody =>
      by_cases hs : status < 200 ∨ 300 ≤ status
      · simp only [if_pos hs]
        cases hj : codec.unmarshalApiError respBody with
        | some apiErr => by_cases hm : apiErr.Message = "" <;> simp [hm]
        | none => rfl
      · simp only [if_neg hs]
        by_cases hr : hasResult = true ∧ 0 < respBody.length
        · simp only [if_pos hr]
          cases hu : codec.unmarshalResultErr respBody <;> rfl
        · simp [if_neg hr]

lemma postRawCore_fst (c : APIClient) (path : String) (bodyStr : Option String)
    (env : WireEnv) (codec : JsonCodec)
    (h : env.newRequestError = none) :
    (postRawCore c path bodyStr env codec).1 = [mkHTTPRequest c "POST" path bodyStr] := by
  unfold postRawCore
  simp only [h]
  cases h2 : env.roundTrip (mkHTTPRequest c "POST" path bodyStr) with
  | netErr m => rfl
  | resp status rb =>
    cases rb with
    | err m => rfl
    | ok respBody =>
      by_cases hs : status < 200 ∨ 300 ≤ status
      · simp only [if_pos hs]
        cases hj : codec.unmarshalApiError respBody with
        | some apiErr => by_cases hm : apiErr.Message = "" <;> simp [hm]
        | none => rfl
      · simp only [if_neg hs]

lemma Request_trace (c : APIClient) (method path : String) (body : Option MarshalResult)
    (hasResult : Bool) (env : WireEnv) (codec : JsonCodec) :
    (APIClient.Request c method path body hasResult env codec).1 = [] ∨
    (APIClient.Request c method path body hasResult env codec).1 =
      [mkHTTPRequest c method path (bodyStrOf body)] := by
  unfold APIClient.Request
  rcases body with _ | (s | m)
  · cases h : env.newRequestError with
    | some m =>
      left
      show (requestCore c method path (bodyStrOf none) hasResult env codec).1 = []
      unfold requestCore
      simp [h]
    | none =>
      right
      exact requestCore_fst c method path (bodyStrOf none) hasResult env codec h
  · cases h : env.newRequestError with
    | some m =>
      left
      show (requestCore c method path (bodyStrOf (some (.ok s))) hasResult env codec).1 = []
      unfold requestCore
      simp [h]
    | none =>
      right
      exact requestCore_fst c method path (bodyStrOf (some (.ok s))) hasResult env codec h
  · exact Or.inl rfl

lemma PostRaw_trace (c : APIClient) (path : String) (body : Option MarshalResult)
    (env : WireEnv) (codec : JsonCodec) :
    (APIClient.PostRaw c path body env codec).1 = [] ∨
    (APIClient.PostRaw c path body env codec).1 =
      [mkHTTPRequest c "POST" path (bodyStrOf body)] := by
  unfold APIClient.PostRaw
  rcases body with _ | (s | m)
  · cases h : env.newRequestError with
    | some m =>
      left
      show (postRawCore c path (bodyStrOf none) env codec).1 = []
      unfold postRawCore
      simp [h]
    | none =>
      right
      exact postRawCore_fst c path (bodyStrOf none) env codec h
  · cases h : env.newRequestError with
    | some m =>
      left
      show (postRawCore c path (bodyStrOf (some (.ok s))) env codec).1 = []
      unfold postRawCore
      simp [h]
    | none =>
      right
      exact postRawCore_fst c path (bodyStrOf (some (.ok s))) env codec h
  · exact Or.inl rfl

/-- C8: `IsNotFound err` is true exactly when `err` is a typed
`*APIError` with `Code = 404`, or a non-nil error of any other kind
whose message contains "status 404"; an `APIError` with `Code = 0` is
never classified as not-found whatever its message says, and a nil
error is not not-found. -/
theorem isNotFound_characterization :
    (∀ err : Option GoError, IsNotFound err = true ↔
      ((∃ e, err = some (.apiError e) ∧ e.Code = 404) ∨
       (∃ m, err = some (.other m) ∧ strContains m "status 404" = true))) ∧
    (∀ msg : String, IsNotFound (some (.apiError ⟨msg, 0⟩)) = false) ∧
    IsNotFound (none : Option GoError) = false := by
  refine ⟨?_, ?_, rfl⟩
  · intro err
    constructor
    · intro h
      match err with
      | none => exact absurd h (by simp [IsNotFound])
      | some (.apiError e) =>
        left
        refine ⟨e, rfl, ?_⟩
        simpa [IsNotFound] using h
      | some (.other m) =>
        right
        exact ⟨m, rfl, h⟩
    · rintro (⟨e, rfl, hc⟩ | ⟨m, rfl, hm⟩)
      · simp [IsNotFound, hc]
      · exact hm
  · intro msg
    rfl

/-- C4: converting any (possibly empty) rule list to a Terraform list
and extracting it back yields the same rules (hence the same patterns)
in the same order, and neither direction produces diagnostics. -/
theorem branch_protection_round_trip (rules : List BranchProtectionRule) :
    extractBranchProtectionRules (branchProtectionRulesToTerraformList rules).1 =
      (rules, ([] : Diagnostics)) ∧
    (branchProtectionRulesToTerraformList rules).2 = ([] : Diagnostics) := by
  have hmap : ∀ l : List BranchProtectionRule,
      (l.map (fun rule => ({ attributes := [("pattern", TFString.value rule.Pattern)] } : TFObject))).map
        (fun obj => ({ Pattern := (obj.getAttr "pattern").valueString } : BranchProtectionRule)) = l := by
    intro l
    induction l with
    | nil => rfl
    | cons r t ih =>
      simp only [List.map_cons]
      rw [ih]
      rfl
  constructor
  · unfold branchProtectionRulesToTerraformList
    by_cases h : rules.length = 0
    · have h0 : rules = [] := List.length_eq_zero.mp h
      subst h0
      rfl
    · simp only [if_neg h, extractBranchProtectionRules]
      rw [hmap rules]
  · unfold branchProtectionRulesToTerraformList
    by_cases h : rules.length = 0 <;> simp [h]

/-- C7: every invocation of `Request` or `PostRaw` hands at most one
request to the HTTP client, whatever the status code or error outcome of
the environment; a failed request is never re-issued within the call. -/
theorem no_retry_at_most_one_round_trip (c : APIClient) (method path pathP : String)
    (body bodyP : Option MarshalResult) (hasResult : Bool)
    (env envP : WireEnv) (codec codecP : JsonCodec) :
    (APIClient.Request c method path body hasResult env codec).1.length ≤ 1 ∧
    (APIClient.PostRaw c pathP bodyP envP codecP).1.length ≤ 1 := by
  constructor
  · rcases Request_trace c method path body hasResult env codec with h | h <;> simp [h]
  · rcases PostRaw_trace c pathP bodyP envP codecP with h | h <;> simp [h]

/-- C9: the repository, branch and tag Update handlers issue no HTTP
request at all and write the planned values back as state unchanged. -/
theorem update_is_server_side_noop
    (repoPlan : RepositoryModel) (branchPlan : BranchModel) (tagPlan : TagModel)
    (rp : Except Diagnostics RepositoryModel) (bp : Except Diagnostics BranchModel)
    (tp : Except Diagnostics TagModel) :
    RepositoryResource.Update (.ok repoPlan) = ([], .ok repoPlan) ∧
    BranchResource.Update (.ok branchPlan) = ([], .ok branchPlan) ∧
    TagResource.Update (.ok tagPlan) = ([], .ok tagPlan) ∧
    (RepositoryResource.Update rp).1 = [] ∧
    (BranchResource.Update bp).1 = [] ∧
    (TagResource.Update tp).1 = [] :=
  ⟨rfl, rfl, rfl, rfl, rfl, rfl⟩

/-- C1: a GET error classified as 404 makes the repository, branch, tag
and branch-protection Read handlers remove the resource from state with
no error diagnostic, and a 404 error during repository, branch or tag
Delete is ignored so the delete completes without a diagnostic. -/
theorem notFound_maps_to_absence (e : GoError) (hnf : IsNotFound (some e) = true)
    (repoData : RepositoryModel) (branchData : BranchModel) (tagData : TagModel)
    (bpData : BranchProtectionModel) :
    (RepositoryResource.Read repoData (.error e)).2 = .removed ∧
    (BranchResource.Read branchData (.error e)).2 = .removed ∧
    (TagResource.Read tagData (.error e)).2 = .removed ∧
    (BranchProtectionResource.Read bpData (.error e)).2 = .removed ∧
    (RepositoryResource.Delete repoData (some e)).2 = .completed ∧
    (BranchResource.Delete branchData (some e)).2 = .completed ∧
    (TagResource.Delete tagData (some e)).2 = .completed := by
  unfold RepositoryResource.Read BranchResource.Read TagResource.Read
    BranchProtectionResource.Read RepositoryResource.Delete BranchResource.Delete
    TagResource.Delete
  simp [hnf]

/-- Witness for C1 at a concrete 404 API error and concrete state
models. -/
theorem notFound_maps_to_absence_witness :
    (RepositoryResource.Read sampleRepositoryModel (.error sampleNotFound)).2 = .removed ∧
    (BranchResource.Read sampleBranchModel (.error sampleNotFound)).2 = .removed ∧
    (TagResource.Read sampleTagModel (.error sampleNotFound)).2 = .removed ∧
    (BranchProtectionResource.Read sampleBranchProtectionModel (.error sampleNotFound)).2 = .removed ∧
    (RepositoryResource.Delete sampleRepositoryModel (some sampleNotFound)).2 = .completed ∧
    (BranchResource.Delete sampleBranchModel (some sampleNotFound)).2 = .completed ∧
    (TagResource.Delete sampleTagModel (some sampleNotFound)).2 = .completed :=
  notFound_maps_to_absence sampleNotFound (by decide) sampleRepositoryModel
    sampleBranchModel sampleTagModel sampleBranchProtectionModel

lemma Request_map_ok (c : APIClient) (method path : String) (bodyStr : Option String)
    (hasResult : Bool) (env : WireEnv) (codec : JsonCodec) :
    APIClient.Request c method path (bodyStr.map MarshalResult.ok) hasResult env codec =
      requestCore c method path bodyStr hasResult env codec := by
  cases bodyStr <;> rfl

lemma PostRaw_map_ok (c : APIClient) (path : String) (bodyStr : Option String)
    (env : WireEnv) (codec : JsonCodec) :
    APIClient.PostRaw c path (bodyStr.map MarshalResult.ok) env codec =
      postRawCore c path bodyStr env codec := by
  cases bodyStr <;> rfl

/-- C2: when marshaling, request construction, the round trip and the
body read all succeed, `Request` returns nil exactly when the status is
in [200, 300) and, if a result target was given and the body is
non-empty, the body unmarshals into it; every status outside [200, 300)
yields a non-nil error. -/
theorem request_error_classification (c : APIClient) (method path : String)
    (bodyStr : Option String) (hasResult : Bool) (env : WireEnv) (codec : JsonCodec)
    (status : Int) (respBody : String)
    (hreq : env.newRequestError = none)
    (hrt : env.roundTrip (mkHTTPRequest c method path bodyStr) = .resp status (.ok respBody)) :
    ((APIClient.Request c method path (bodyStr.map MarshalResult.ok) hasResult env codec).2).isNone =
      (decide (200 ≤ status) && decide (status < 300) &&
       (!(hasResult && decide (0 < respBody.length)) ||
        (codec.unmarshalResultErr respBody).isNone)) := by
  rw [Request_map_ok]
  unfold requestCore
  simp only [hreq, hrt]
  by_cases hs : status < 200 ∨ 300 ≤ status
  · have h200 : (decide (200 ≤ status) && decide (status < 300)) = false := by
      rcases hs with h | h
      · have hx : ¬ 200 ≤ status := by omega
        simp [hx]
      · have hx : ¬ status < 300 := by omega
        simp [hx]
    rw [h200, Bool.false_and]
    simp only [if_pos hs]
    cases hj : codec.unmarshalApiError respBody with
    | some apiErr => by_cases hm : apiErr.Message = "" <;> simp [hm]
    | none => rfl
  · have hand : 200 ≤ status ∧ status < 300 := by
      constructor <;> omega
    have h200 : (decide (200 ≤ status) && decide (status < 300)) = true := by
      simp [hand.1, hand.2]
    rw [h200, Bool.true_and]
    simp only [if_neg hs]
    by_cases hr : hasResult = true ∧ 0 < respBody.length
    · simp only [if_pos hr]
      have hrb : (hasResult && decide (0 < respBody.length)) = true := by
        simp [hr.1, hr.2]
      rw [hrb]
      cases hu : codec.unmarshalResultErr respBody <;> simp
    · simp only [if_neg hr]
      have hrb : (hasResult && decide (0 < respBody.length)) = false := by
        cases hh : hasResult
        · rfl
        · have hx : ¬ 0 < respBody.length := fun hl => hr ⟨hh, hl⟩
          simp [hx]
      simp [hrb]

/-- Witness for C2 at a concrete 200 / empty-body exchange. -/
theorem request_error_classification_witness :
    ((APIClient.Request (NewAPIClient sampleConfig) "GET" "/user"
        (Option.map MarshalResult.ok none) true envOk codecPlain).2).isNone =
      (decide ((200 : Int) ≤ 200) && decide ((200 : Int) < 300) &&
       (!(true && decide (0 < ("" : String).length)) ||
        (codecPlain.unmarshalResultErr "").isNone)) :=
  request_error_classification (NewAPIClient sampleConfig) "GET" "/user" none true
    envOk codecPlain 200 "" rfl rfl

lemma isPrefixOf_self (l : List Char) : l.isPrefixOf l = true := by
  have h := isPrefixOf_append_self l []
  rwa [List.append_nil] at h

lemma strContains_append_right (a b : String) : strContains (a ++ b) b = true := by
  unfold strContains
  show charsContain (a.data ++ b.data) b.data = true
  exact charsContain_prepend _ _ _ (charsContain_of_isPrefixOf _ _ (isPrefixOf_self _))

lemma apiFailText_contains_status (status : Int) (respBody : String) :
    strContains (apiFailText status respBody) (toString status) = true := by
  have hassoc : apiFailText status respBody =
      "API request failed with status " ++ toString status ++ (": " ++ respBody) :=
    String.append_assoc _ _ _
  rw [hassoc]
  exact strContains_append_middle _ _ _

lemma apiFailText_contains_body (status : Int) (respBody : String) :
    strContains (apiFailText status respBody) respBody = true :=
  strContains_append_right _ _

/-- C3: for a non-2xx response whose body decodes to a JSON object with
a non-empty message, `Request` and `PostRaw` return that `APIError`
value unchanged (message and status code as decoded); for every other
non-2xx response both return an error whose text contains the numeric
status code and the raw response body. -/
theorem server_error_passthrough (c : APIClient) (method path pathP : String)
    (bodyStr bodyStrP : Option String) (hasResult : Bool) (env : WireEnv) (codec : JsonCodec)
    (status : Int) (respBody : String)
    (hreq : env.newRequestError = none)
    (hs : status < 200 ∨ 300 ≤ status)
    (hrt : env.roundTrip (mkHTTPRequest c method path bodyStr) = .resp status (.ok respBody))
    (hrtP : env.roundTrip (mkHTTPRequest c "POST" pathP bodyStrP) = .resp status (.ok respBody)) :
    (APIClient.Request c method path (bodyStr.map MarshalResult.ok) hasResult env codec).2 =
      some (match codec.unmarshalApiError respBody with
            | some apiErr =>
              if apiErr.Message ≠ "" then GoError.apiError apiErr
              else .other (apiFailText status respBody)
            | none => .other (apiFailText status respBody)) ∧
    (APIClient.PostRaw c pathP (bodyStrP.map MarshalResult.ok) env codec).2 =
      .error (match codec.unmarshalApiError respBody with
            | some apiErr =>
              if apiErr.Message ≠ "" then GoError.apiError apiErr
              else .other (apiFailText status respBody)
            | none => .other (apiFailText status respBody)) ∧
    strContains (apiFailText status respBody) (toString status) = true ∧
    strContains (apiFailText status respBody) respBody = true := by
  refine ⟨?_, ?_, apiFailText_contains_status status respBody,
    apiFailText_contains_body status respBody⟩
  · rw [Request_map_ok]
    unfold requestCore
    simp only [hreq, hrt, if_pos hs]
    cases hj : codec.unmarshalApiError respBody with
    | some apiErr => by_cases hm : apiErr.Message = "" <;> simp [hm]
    | none => rfl
  · rw [PostRaw_map_ok]
    unfold postRawCore
    simp only [hreq, hrtP, if_pos hs]
    cases hj : codec.unmarshalApiError respBody with
    | some apiErr => by_cases hm : apiErr.Message = "" <;> simp [hm]
    | none => rfl

/-- Witness for C3 at a concrete 404 exchange whose body decodes to a
404 APIError with a non-empty message. -/
theorem server_error_passthrough_witness :
    (APIClient.Request (NewAPIClient sampleConfig) "GET" "/repositories/r"
        (Option.map MarshalResult.ok none) true env404 codec404).2 =
      some (match codec404.unmarshalApiError "nf" with
            | some apiErr =>
              if apiErr.Message ≠ "" then GoError.apiError apiErr
              else .other (apiFailText 404 "nf")
            | none => .other (apiFailText 404 "nf")) ∧
    (APIClient.PostRaw (NewAPIClient sampleConfig) "/repositories/r/branches"
        (Option.map MarshalResult.ok none) env404 codec404).2 =
      .error (match codec404.unmarshalApiError "nf" with
            | some apiErr =>
              if apiErr.Message ≠ "" then GoError.apiError apiErr
              else .other (apiFailText 404 "nf")
            | none => .other (apiFailText 404 "nf")) ∧
    strContains (apiFailText 404 "nf") (toString (404 : Int)) = true ∧
    strContains (apiFailText 404 "nf") "nf" = true :=
  server_error_passthrough (NewAPIClient sampleConfig) "GET" "/repositories/r"
    "/repositories/r/branches" none none true env404 codec404 404 "nf"
    rfl (by decide) rfl rfl

/-- C6: every HTTP request issued by `Request` or `PostRaw` targets the
configured endpoint with a single trailing slash removed concatenated
with the given path, carries basic-auth credentials equal to the
configured access key ID and secret access key, and sets Content-Type
and Accept to application/json. -/
theorem request_url_auth_headers (config : LakeFSClient) (method path pathP : String)
    (body bodyP : Option MarshalResult) (hasResult : Bool)
    (env envP : WireEnv) (codec codecP : JsonCodec) (req : HTTPRequest)
    (hmem : req ∈ ((NewAPIClient config).Request method path body hasResult env codec).1 ∨
            req ∈ ((NewAPIClient config).PostRaw pathP bodyP envP codecP).1) :
    (req.url = trimSuffix config.Endpoint "/" ++ path ∨
     req.url = trimSuffix config.Endpoint "/" ++ pathP) ∧
    req.username = config.AccessKeyID ∧
    req.password = config.SecretAccessKey ∧
    req.contentType = "application/json" ∧
    req.accept = "application/json" := by
  rcases hmem with hm | hm
  · rcases Request_trace (NewAPIClient config) method path body hasResult env codec with h | h
    · rw [h] at hm
      exact absurd hm (List.not_mem_nil req)
    · rw [h] at hm
      have hr : req = mkHTTPRequest (NewAPIClient config) method path (bodyStrOf body) :=
        List.mem_singleton.mp hm
      subst hr
      exact ⟨Or.inl rfl, rfl, rfl, rfl, rfl⟩
  · rcases PostRaw_trace (NewAPIClient config) pathP bodyP envP codecP with h | h
    · rw [h] at hm
      exact absurd hm (List.not_mem_nil req)
    · rw [h] at hm
      have hr : req = mkHTTPRequest (NewAPIClient config) "POST" pathP (bodyStrOf bodyP) :=
        List.mem_singleton.mp hm
      subst hr
      exact ⟨Or.inr rfl, rfl, rfl, rfl, rfl⟩

/-- Witness for C6 at a concrete GET request issued against the sample
configuration. -/
theorem request_url_auth_headers_witness :
    ((mkHTTPRequest (NewAPIClient sampleConfig) "GET" "/user" none).url =
        trimSuffix sampleConfig.Endpoint "/" ++ "/user" ∨
     (mkHTTPRequest (NewAPIClient sampleConfig) "GET" "/user" none).url =
        trimSuffix sampleConfig.Endpoint "/" ++ "/setup") ∧
    (mkHTTPRequest (NewAPIClient sampleConfig) "GET" "/user" none).username =
      sampleConfig.AccessKeyID ∧
    (mkHTTPRequest (NewAPIClient sampleConfig) "GET" "/user" none).password =
      sampleConfig.SecretAccessKey ∧
    (mkHTTPRequest (NewAPIClient sampleConfig) "GET" "/user" none).contentType =
      "application/json" ∧
    (mkHTTPRequest (NewAPIClient sampleConfig) "GET" "/user" none).accept =
      "application/json" :=
  request_url_auth_headers sampleConfig "GET" "/user" "/setup" none none true
    envOk envOk codecPlain codecPlain
    (mkHTTPRequest (NewAPIClient sampleConfig) "GET" "/user" none)
    (Or.inl (by
      rw [show ((NewAPIClient sampleConfig).Request "GET" "/user" none true envOk codecPlain).1 =
        [mkHTTPRequest (NewAPIClient sampleConfig) "GET" "/user" none] from rfl]
      exact List.mem_singleton.mpr rfl))

lemma createReqOf_eq (data : RepositoryModel) :
    repositoryCreateRequestOf data =
      { Name := data.Name.valueString
        StorageNamespace := data.StorageNamespace.valueString
        DefaultBranch :=
          if !data.DefaultBranch.isNull && !data.DefaultBranch.isUnknown then
            data.DefaultBranch.valueString else ""
        SampleData :=
          if !data.SampleData.isNull && !data.SampleData.isUnknown then
            data.SampleData.valueBool else false
        ReadOnly :=
          if !data.ReadOnly.isNull && !data.ReadOnly.isUnknown then
            data.ReadOnly.valueBool else false } := by
  by_cases h1 : (!data.DefaultBranch.isNull && !data.DefaultBranch.isUnknown) = true <;>
    by_cases h2 : (!data.SampleData.isNull && !data.SampleData.isUnknown) = true <;>
      by_cases h3 : (!data.ReadOnly.isNull && !data.ReadOnly.isUnknown) = true <;>
        simp [repositoryCreateRequestOf, h1, h2, h3]

lemma marshal_key_name (r : RepositoryCreateRequest) :
    ((r.marshalFields.map Prod.fst).contains "name") = true := by
  unfold RepositoryCreateRequest.marshalFields
  by_cases h1 : r.DefaultBranch = "" <;> by_cases h2 : r.SampleData = true <;>
    by_cases h3 : r.ReadOnly = true <;> simp [h1, h2, h3]

lemma marshal_key_storage (r : RepositoryCreateRequest) :
    ((r.marshalFields.map Prod.fst).contains "storage_namespace") = true := by
  unfold RepositoryCreateRequest.marshalFields
  by_cases h1 : r.DefaultBranch = "" <;> by_cases h2 : r.SampleData = true <;>
    by_cases h3 : r.ReadOnly = true <;> simp [h1, h2, h3]

lemma marshal_key_default_branch (r : RepositoryCreateRequest) :
    ((r.marshalFields.map Prod.fst).contains "default_branch") = !(r.DefaultBranch == "") := by
  unfold RepositoryCreateRequest.marshalFields
  by_cases h1 : r.DefaultBranch = "" <;> by_cases h2 : r.SampleData = true <;>
    by_cases h3 : r.ReadOnly = true <;> simp [h1, h2, h3]

lemma marshal_key_sample_data (r : RepositoryCreateRequest) :
    ((r.marshalFields.map Prod.fst).contains "sample_data") = r.SampleData := by
  unfold RepositoryCreateRequest.marshalFields
  by_cases h1 : r.DefaultBranch = "" <;> by_cases h2 : r.SampleData = true <;>
    by_cases h3 : r.ReadOnly = true <;> simp [h1, h2, h3]

lemma marshal_key_read_only (r : RepositoryCreateRequest) :
    ((r.marshalFields.map Prod.fst).contains "read_only") = r.ReadOnly := by
  unfold RepositoryCreateRequest.marshalFields
  by_cases h1 : r.DefaultBranch = "" <;> by_cases h2 : r.SampleData = true <;>
    by_cases h3 : r.ReadOnly = true <;> simp [h1, h2, h3]

/-- C5: for every plan, repository Create sends POST /repositories with
name and storage_namespace from the plan; the marshaled body carries
default_branch, sample_data and read_only only when the plan value is
neither null nor unknown (the Boolean equations below make the inclusion
conditions exact, each a conjunction requiring not-null and not-unknown);
and on success the state fields id, repository and name all receive the
response id, with the remaining fields from the matching response
fields. -/
theorem repository_create_mapping (data : RepositoryModel) (res : RepositoryResponse) :
    (RepositoryResource.Create data (.ok res)).1 =
      ("POST", "/repositories", repositoryCreateRequestOf data) ∧
    (repositoryCreateRequestOf data).Name = data.Name.valueString ∧
    (repositoryCreateRequestOf data).StorageNamespace = data.StorageNamespace.valueString ∧
    (((repositoryCreateRequestOf data).marshalFields.map Prod.fst).contains "name") = true ∧
    (((repositoryCreateRequestOf data).marshalFields.map Prod.fst).contains "storage_namespace") = true ∧
    (((repositoryCreateRequestOf data).marshalFields.map Prod.fst).contains "default_branch") =
      (!data.DefaultBranch.isNull && !data.DefaultBranch.isUnknown &&
       !(data.DefaultBranch.valueString == "")) ∧
    (((repositoryCreateRequestOf data).marshalFields.map Prod.fst).contains "sample_data") =
      (!data.SampleData.isNull && !data.SampleData.isUnknown && data.SampleData.valueBool) ∧
    (((repositoryCreateRequestOf data).marshalFields.map Prod.fst).contains "read_only") =
      (!data.ReadOnly.isNull && !data.ReadOnly.isUnknown && data.ReadOnly.valueBool) ∧
    (RepositoryResource.Create data (.ok res)).2 = .created (repositoryStateOf data res) ∧
    (repositoryStateOf data res).Id = .value res.ID ∧
    (repositoryStateOf data res).Repository = .value res.ID ∧
    (repositoryStateOf data res).Name = .value res.ID ∧
    (repositoryStateOf data res).StorageNamespace = .value res.StorageNamespace ∧
    (repositoryStateOf data res).StorageId = .value res.StorageID ∧
    (repositoryStateOf data res).DefaultBranch = .value res.DefaultBranch ∧
    (repositoryStateOf data res).CreationDate = .value res.CreationDate ∧
    (repositoryStateOf data res).ReadOnly = .value res.ReadOnly := by
  refine ⟨rfl, ?_, ?_, marshal_key_name _, marshal_key_storage _, ?_, ?_, ?_,
    rfl, rfl, rfl, rfl, rfl, rfl, rfl, rfl, rfl⟩
  · rw [createReqOf_eq]
  · rw [createReqOf_eq]
  · rw [marshal_key_default_branch, createReqOf_eq]
    cases hc : (!data.DefaultBranch.isNull && !data.DefaultBranch.isUnknown) <;>
      simp [hc, Bool.and_assoc]
  · rw [marshal_key_sample_data, createReqOf_eq]
    cases hc : (!data.SampleData.isNull && !data.SampleData.isUnknown) <;>
      simp [hc, Bool.and_assoc]
  · rw [marshal_key_read_only, createReqOf_eq]
    cases hc : (!data.ReadOnly.isNull && !data.ReadOnly.isUnknown) <;>
      simp [hc, Bool.and_assoc]

lemma put_trace_ok (c : APIClient) (path body2 : String) (env : WireEnv) (codec : JsonCodec)
    (hreq : env.newRequestError = none) :
    (c.Put path (some (.ok body2)) false env codec).1 =
      [mkHTTPRequest c "PUT" path (some body2)] := by
  unfold APIClient.Put APIClient.Request
  exact requestCore_fst c "PUT" path (some body2) false env codec hreq

/-- C10: the branch-protection Delete issues exactly one request in any
environment where request construction succeeds — a PUT of the empty
JSON rules array "[]" to the settings path, so in particular never a
DELETE — and when that PUT returns an error classified as 404 the
handler still completes without a diagnostic. -/
theorem branch_protection_delete_put_empty (client : LakeFSClient)
    (data : BranchProtectionModel) (env env2 : WireEnv) (codec : JsonCodec) (e : GoError)
    (hreq2 : env2.newRequestError = none)
    (hreq : env.newRequestError = none)
    (hnf : IsNotFound (some e) = true)
    (herr : ((NewAPIClient client).Put (branchProtectionPathOf data)
        (some (.ok (marshalBranchProtectionRules []))) false env codec).2 = some e) :
    (BranchProtectionResource.Delete client data env2 codec).1 =
      [mkHTTPRequest (NewAPIClient client) "PUT" (branchProtectionPathOf data) (some "[]")] ∧
    marshalBranchProtectionRules [] = "[]" ∧
    ((mkHTTPRequest (NewAPIClient client) "PUT" (branchProtectionPathOf data)
        (some "[]")).method == "DELETE") = false ∧
    BranchProtectionResource.Delete client data env codec =
      ([mkHTTPRequest (NewAPIClient client) "PUT" (branchProtectionPathOf data) (some "[]")],
       .completed) := by
  refine ⟨?_, rfl, rfl, ?_⟩
  · show ((NewAPIClient client).Put (branchProtectionPathOf data)
      (some (.ok (marshalBranchProtectionRules []))) false env2 codec).1 = _
    rw [put_trace_ok _ _ _ _ _ hreq2]
    rfl
  · simp only [BranchProtectionResource.Delete]
    rw [herr, put_trace_ok _ _ _ _ _ hreq]
    simp only [hnf, Bool.not_true, Bool.false_eq_true, if_false]
    rfl

/-- Witness for C10 at the sample configuration against a wire
environment answering 404 with a decodable not-found message. -/
theorem branch_protection_delete_put_empty_witness :
    (BranchProtectionResource.Delete sampleConfig sampleBranchProtectionModel envOk codec404).1 =
      [mkHTTPRequest (NewAPIClient sampleConfig) "PUT"
        (branchProtectionPathOf sampleBranchProtectionModel) (some "[]")] ∧
    marshalBranchProtectionRules [] = "[]" ∧
    ((mkHTTPRequest (NewAPIClient sampleConfig) "PUT"
        (branchProtectionPathOf sampleBranchProtectionModel) (some "[]")).method == "DELETE") = false ∧
    BranchProtectionResource.Delete sampleConfig sampleBranchProtectionModel env404 codec404 =
      ([mkHTTPRequest (NewAPIClient sampleConfig) "PUT"
          (branchProtectionPathOf sampleBranchProtectionModel) (some "[]")],
       .completed) :=
  branch_protection_delete_put_empty sampleConfig sampleBranchProtectionModel env404 envOk
    codec404 (.apiError ⟨"not found", 404⟩) rfl rfl (by decide) rfl
